import Mathlib

/-!
Verification of the apply/prune orchestration core of the cli-utils
repository against its natural-language specification.

The Go source is shallowly embedded: pure functions become Lean
functions, the event channel of a run becomes the list of events the
single producing goroutine sends before it closes the channel, and the
collaborators (dynamic client, inventory client, task runner) become
explicit parameters carrying their outcomes.  Definitions are
translated from the source files; the handful of functions whose
implementation is not part of the provided sources (only their tests
and callers are) are modelled from the specification and marked
`Modelled from the spec:` in their doc comments.
-/

/-! ## Object identity (pkg/object) -/

/-- `schema.GroupKind`: the group/kind pair of a resource type. -/
structure GroupKind where
  Group : String
  Kind : String
deriving DecidableEq, Repr

/-- `object.ObjMetadata`: the unique identifier of a resource object,
`{group, kind, namespace, name}`. -/
structure ObjMetadata where
  Namespace : String
  Name : String
  GroupKind : GroupKind
deriving DecidableEq, Repr

/-! ## Inventory differ (pkg/apply/prune, GetPruneObjs) -/

/-- Modelled from the spec: `PruneOptions.GetPruneObjs` (its
implementation is not among the provided sources; only its test
`TestGetPruneObjs` and its caller `Applier.prepareObjects` are).
Per the spec it is the pure set difference of the previous inventory
identifier set and the desired identifier set, with a hash-based
membership test. -/
def GetPruneObjs (prevInv localObjs : List ObjMetadata) : List ObjMetadata :=
  prevInv.filter (fun o => decide (o ∉ localObjs))

/-! ### Sample identifiers (from prune_test.go fixtures) -/

def podId : ObjMetadata :=
  { Namespace := "test-inventory-namespace", Name := "pod-1",
    GroupKind := { Group := "", Kind := "Pod" } }

def pdbId : ObjMetadata :=
  { Namespace := "test-inventory-namespace", Name := "pdb",
    GroupKind := { Group := "policy", Kind := "PodDisruptionBudget" } }

def namespaceId : ObjMetadata :=
  { Namespace := "", Name := "test-inventory-namespace",
    GroupKind := { Group := "", Kind := "Namespace" } }

/-! ## Unstructured objects and inventory metadata -/

/-- The fields of an `unstructured.Unstructured` resource document that
the prune path reads: type, namespace, name, uid, and the metadata
annotations and labels (each a string-to-string map, embedded as an
association list). -/
structure Unstructured where
  GroupKind : GroupKind
  Namespace : String
  Name : String
  uid : String
  annotations : List (String × String) := []
  labels : List (String × String) := []
deriving DecidableEq

/-- `object.UnstructuredToObjMeta`: the identifier of an object. -/
def Unstructured.id (u : Unstructured) : ObjMetadata :=
  { Namespace := u.Namespace, Name := u.Name, GroupKind := u.GroupKind }

/-- Lookup in a string-to-string metadata map; a missing key reads as
the empty string, as with Go map indexing. -/
def lookupMeta (m : List (String × String)) (key : String) : String :=
  match m.find? (fun p => p.1 = key) with
  | some p => p.2
  | none => ""

/-- The value of the object's metadata annotation `key` (empty when absent). -/
def Unstructured.annoValue (u : Unstructured) (key : String) : String :=
  lookupMeta u.annotations key

/-- The value of the object's metadata label `key` (empty when absent). -/
def Unstructured.labelValue (u : Unstructured) (key : String) : String :=
  lookupMeta u.labels key

/-- `common.InventoryLabel`. -/
def InventoryLabel : String := "cli-utils.sigs.k8s.io/inventory-id"

/-- `common.OnRemoveAnnotation`, the "keep on remove" lifecycle marker key. -/
def OnRemoveKey : String := "cli-utils.sigs.k8s.io/on-remove"

/-- `common.OnRemoveKeep`. -/
def OnRemoveKeep : String := "keep"

/-- `common.LifecycleDeleteAnnotation`, the second lifecycle marker key
(demoed in the lifecycle-directives walkthrough). -/
def LifecycleDeleteKey : String := "client.lifecycle.config.k8s.io/deletion"

/-- `common.PreventDeletion`. -/
def PreventDeletion : String := "detach"

/-- The annotation key recording the owning inventory of an applied
object (`inventory.OwningInventoryKey`). -/
def owningInventoryKey : String := "config.k8s.io/owning-inventory"

/-- `inventory.Strategy`: how an inventory object is identified. -/
inductive Strategy
  | NameStrategy
  | LabelStrategy
deriving DecidableEq

/-- `inventory.InventoryInfo`: the data the applier reads from the
local inventory handle: name, namespace, inventory id and strategy. -/
structure InventoryInfo where
  Name : String
  Namespace : String
  ID : String
  Strategy : Strategy := .LabelStrategy
deriving DecidableEq

/-- `inventory.InventoryPolicy`. -/
inductive InventoryPolicy
  | MustMatch
  | AdoptIfNoInventory
  | AdoptAll
deriving DecidableEq

/-- Modelled from the spec: `inventory.CanPrune` (not among the
provided sources; only its caller `InventoryPolicyFilter.Filter` is).
Per §4.5 an object may be pruned only if its recorded owning-inventory
identifier matches the current inventory's identifier, subject to the
policy: `AdoptAll` always allows, `AdoptIfNoInventory` also allows an
object with no recorded owner, `MustMatch` requires the match. -/
def CanPrune (inv : InventoryInfo) (obj : Unstructured) (policy : InventoryPolicy) : Bool :=
  let owningID := obj.annoValue owningInventoryKey
  match policy with
  | .MustMatch => owningID = inv.ID
  | .AdoptIfNoInventory => owningID = inv.ID || owningID = ""
  | .AdoptAll => true

/-! ## Validation filters (pkg/apply/filter) -/

/-- An error produced somewhere in the run.  The Go sources carry
`error` values; the embedding replaces each distinct error site with a
tag. -/
inductive Err
  | nilLocalInventory
  | foundLocalInventoryObj
  | inventoryIDMismatch
  | restMapperFailure
  | expectedDeleteError
  | filterFailure (filterName : String)
  | runnerFailure
  | parseFailure
  | emptyValidationIdentifiers
  | errorEventErr
deriving DecidableEq

/-- `filter.ValidationFilter`: a pluggable predicate vetoing a
prune/delete candidate.  `Filter` returns whether the object is to be
skipped, and an optional error. -/
structure ValidationFilter where
  Filter : Unstructured → Bool × Option Err

/-- `filter.InventoryPolicyFilter` (src/unnamed/part_000): skips the
object iff `CanPrune` denies it; per its doc comment it never returns
an error. -/
def InventoryPolicyFilter (Inv : InventoryInfo) (InvPolicy : InventoryPolicy) : ValidationFilter :=
  ⟨fun obj => (!(CanPrune Inv obj InvPolicy), none)⟩

/-- Modelled from the spec: `filter.PreventRemoveFilter` (not among the
provided sources).  Per §4.5 an object carrying an explicit "keep on
remove" lifecycle marker is always skipped; the lifecycle-directives
demo shows both marker annotations. -/
def PreventRemoveFilter : ValidationFilter :=
  ⟨fun obj =>
    (obj.annoValue OnRemoveKey = OnRemoveKeep
      || obj.annoValue LifecycleDeleteKey = PreventDeletion, none)⟩

/-- Modelled from the spec: `filter.LocalNamespacesFilter` (not among
the provided sources).  Per §4.5 a candidate Namespace object is
skipped if its name is in the protected namespace set. -/
def LocalNamespacesFilter (LocalNamespaces : Finset String) : ValidationFilter :=
  ⟨fun obj =>
    (obj.GroupKind = { Group := "", Kind := "Namespace" }
      && decide (obj.Name ∈ LocalNamespaces), none)⟩

/-- Modelled from the spec: `filter.CurrentUIDFilter` (not among the
provided sources).  Per §4.5 the delete is skipped if the candidate's
live UID is in the provided already-re-created UID set. -/
def CurrentUIDFilter (CurrentUIDs : Finset String) : ValidationFilter :=
  ⟨fun obj => (decide (obj.uid ∈ CurrentUIDs), none)⟩

/-- `strings.ToLower`, embedded character-wise (resource namespaces
are ASCII names). -/
def toLowerStr (s : String) : String := ⟨s.data.map Char.toLower⟩

/-- `strings.TrimSpace`: drop leading and trailing whitespace. -/
def trimSpace (s : String) : String :=
  ⟨((s.data.dropWhile Char.isWhitespace).reverse.dropWhile Char.isWhitespace).reverse⟩

/-- `localNamespaces` (applier.go 259-276): the set of namespaces of
the passed objects (lower-cased, space-trimmed, empty excluded), plus
the namespace of the inventory object. -/
def localNamespaces (localInv : InventoryInfo) (localObjs : List ObjMetadata) : Finset String :=
  let namespaces :=
    localObjs.foldl (fun acc obj =>
      let ns := trimSpace (toLowerStr obj.Namespace)
      if ns ≠ "" then insert ns acc else acc) (∅ : Finset String)
  let invNamespace := trimSpace (toLowerStr localInv.Namespace)
  if invNamespace ≠ "" then insert invNamespace namespaces else namespaces

/-- The prune validation filter chain built by `Applier.Run`
(applier.go 157-167): prevent-remove, then inventory-policy, then
local-namespace protection. -/
def applierPruneFilters (invInfo : InventoryInfo) (policy : InventoryPolicy)
    (objects : List Unstructured) : List ValidationFilter :=
  [PreventRemoveFilter,
   InventoryPolicyFilter invInfo policy,
   LocalNamespacesFilter (localNamespaces invInfo (objects.map Unstructured.id))]

/-! ## Events (pkg/apply/event) -/

/-- `event.ResourceAction`. -/
inductive ResourceAction
  | ApplyAction
  | PruneAction
  | DeleteAction
  | WaitAction
deriving DecidableEq

/-- `event.ActionGroup`: one named phase of the plan. -/
structure ActionGroup where
  Name : String
  Action : ResourceAction
  Identifiers : List ObjMetadata
deriving DecidableEq

inductive ApplyEventOperation
  | ApplyUnspecified
  | ServersideApplied
  | Created
  | Unchanged
  | Configured
deriving DecidableEq

inductive PruneEventOperation
  | PruneUnspecified
  | Pruned
  | PruneSkipped
deriving DecidableEq

inductive DeleteEventOperation
  | DeleteUnspecified
  | Deleted
  | DeleteSkipped
deriving DecidableEq

inductive WaitEventOperation
  | ReconcilePending
  | Reconciled
  | ReconcileSkipped
  | ReconcileTimeout
  | ReconcileFailed
deriving DecidableEq

/-- `status.Status` plus the locally-synthesized `Invalid`. -/
inductive Status
  | UnknownStatus
  | InProgressStatus
  | CurrentStatus
  | FailedStatus
  | TerminatingStatus
  | NotFoundStatus
  | InvalidStatus
deriving DecidableEq

/-- The per-object status record carried by status events
(`pe.ResourceStatus`; the generated-sub-resource tree and message text
are not read by any claim and are omitted). -/
structure ResourceStatus where
  Identifier : ObjMetadata
  Status : Status
deriving DecidableEq

structure ApplyEvent where
  Operation : ApplyEventOperation
  Identifier : ObjMetadata
  Error : Option Err := none
deriving DecidableEq

structure PruneEvent where
  Operation : PruneEventOperation
  Identifier : ObjMetadata
  Error : Option Err := none
deriving DecidableEq

structure DeleteEvent where
  Operation : DeleteEventOperation
  Identifier : ObjMetadata
  Error : Option Err := none
deriving DecidableEq

structure WaitEvent where
  Operation : WaitEventOperation
  Identifier : ObjMetadata
deriving DecidableEq

structure StatusEvent where
  Identifier : ObjMetadata
  PollResourceInfo : ResourceStatus
deriving DecidableEq

structure ValidationEvent where
  Identifiers : List ObjMetadata
  Error : Err
deriving DecidableEq

/-- `event.Event`: the tagged union flowing on the event channel. -/
inductive Event
  | InitEv (ActionGroups : List ActionGroup)
  | ApplyEv (e : ApplyEvent)
  | PruneEv (e : PruneEvent)
  | DeleteEv (e : DeleteEvent)
  | WaitEv (e : WaitEvent)
  | StatusEv (e : StatusEvent)
  | ValidationEv (e : ValidationEvent)
  | ErrorEv (Err : Err)
deriving DecidableEq

/-- Whether an event is a fatal `Error` event. -/
def Event.isError : Event → Bool
  | .ErrorEv _ => true
  | _ => false

/-! ## Prune/delete engine (pkg/apply/prune) -/

/-- `common.DryRunStrategy`. -/
inductive DryRunStrategy
  | DryRunNone
  | DryRunClient
  | DryRunServer
deriving DecidableEq

/-- `metav1.DeletionPropagation`. -/
inductive DeletionPropagation
  | Background
  | Foreground
  | Orphan
deriving DecidableEq

/-- `prune.Options` (per-run options of the prune engine, as used in
prune_test.go). -/
structure PruneRunOptions where
  DryRunStrategy : DryRunStrategy
  PropagationPolicy : DeletionPropagation
  Destroy : Bool := false
deriving DecidableEq

/-- A mutating delete issued to the dynamic Resource Client, with the
server-side dry-run flag and propagation policy it carried. -/
structure DeleteCall where
  Identifier : ObjMetadata
  DryRun : Bool
  PropagationPolicy : DeletionPropagation
deriving DecidableEq

/-- Modelled from the spec (§4.5): the engine's evaluation of the
caller-supplied filter chain for one candidate.  Returns `none` when
every filter passes; returns `some e` when some filter halts the
chain, where `e` is the error of the halting filter (`none` for a
plain skip).  The first filter returning an error or skip determines
the result and later filters are not evaluated. -/
def runFilters : List ValidationFilter → Unstructured → Option (Option Err)
  | [], _ => none
  | f :: fs, obj =>
    match f.Filter obj with
    | (_, some e) => some (some e)
    | (true, none) => some none
    | (false, none) => runFilters fs obj

/-- The successful outcome event for a candidate: `Deleted` in destroy
mode, `Pruned` otherwise. -/
def successEvent (opts : PruneRunOptions) (id : ObjMetadata) : Event :=
  if opts.Destroy then .DeleteEv { Operation := .Deleted, Identifier := id }
  else .PruneEv { Operation := .Pruned, Identifier := id }

/-- The skipped outcome event for a candidate, carrying the halting
filter's error if any. -/
def skippedEvent (opts : PruneRunOptions) (id : ObjMetadata) (e : Option Err) : Event :=
  if opts.Destroy then .DeleteEv { Operation := .DeleteSkipped, Identifier := id, Error := e }
  else .PruneEv { Operation := .PruneSkipped, Identifier := id, Error := e }

/-- The per-object failure event for a failed remote delete. -/
def failedEvent (opts : PruneRunOptions) (id : ObjMetadata) (e : Err) : Event :=
  if opts.Destroy then .DeleteEv { Operation := .DeleteUnspecified, Identifier := id, Error := some e }
  else .PruneEv { Operation := .PruneUnspecified, Identifier := id, Error := some e }

/-- Modelled from the spec (§4.5): processing of one prune/delete
candidate by `PruneOptions.Prune` (the engine implementation is not
among the provided sources; its tests are).  `deleteResult` is the
remote delete outcome of the dynamic client for an identifier (`none`
is success).  A skipped object issues no delete call; client-side
dry-run issues no delete call but still emits the successful outcome
event; server-side dry-run issues the delete call with the dry-run
flag set.  Returns the mutating calls issued and the outcome event
emitted for the object. -/
def pruneObject (deleteResult : ObjMetadata → Option Err)
    (filters : List ValidationFilter) (opts : PruneRunOptions)
    (obj : Unstructured) : List DeleteCall × Event :=
  match runFilters filters obj with
  | some e => ([], skippedEvent opts obj.id e)
  | none =>
    match opts.DryRunStrategy with
    | .DryRunClient => ([], successEvent opts obj.id)
    | s =>
      let call : DeleteCall :=
        { Identifier := obj.id, DryRun := decide (s = .DryRunServer),
          PropagationPolicy := opts.PropagationPolicy }
      match deleteResult obj.id with
      | some e => ([call], failedEvent opts obj.id e)
      | none => ([call], successEvent opts obj.id)

/-- Modelled from the spec (§4.5): `PruneOptions.Prune` processes every
candidate in order, emitting one outcome event per candidate on the
task context's event channel, and returns without a run-level error
(its test asserts the returned error is nil even when deletes fail).
Result: (mutating delete calls, emitted events, run-level error). -/
def Prune (deleteResult : ObjMetadata → Option Err) (pruneObjs : List Unstructured)
    (filters : List ValidationFilter) (opts : PruneRunOptions) :
    List DeleteCall × List Event × Option Err :=
  let results := pruneObjs.map (pruneObject deleteResult filters opts)
  ((results.map Prod.fst).flatten, results.map Prod.snd, none)

/-! ## Applier.Run (pkg/apply/applier.go) -/

/-- `ResourceInfos.Less` (printer_test.go), at the identifier level:
ordered by namespace, then group, then kind, then name. -/
def idLess (a b : ObjMetadata) : Bool :=
  if a.Namespace ≠ b.Namespace then decide (a.Namespace < b.Namespace)
  else if a.GroupKind.Group ≠ b.GroupKind.Group then
    decide (a.GroupKind.Group < b.GroupKind.Group)
  else if a.GroupKind.Kind ≠ b.GroupKind.Kind then
    decide (a.GroupKind.Kind < b.GroupKind.Kind)
  else decide (a.Name < b.Name)

/-- Modelled from the spec (§4.2): `ordering.SortableUnstructureds`
(not among the provided sources): a deterministic stable sort of the
apply set, embedded as a stable merge sort by the ObjectIdentifier
ordering. -/
def sortObjs (objs : List Unstructured) : List Unstructured :=
  objs.mergeSort (fun a b => !(idLess b.id a.id))

/-- Modelled from the spec: `inventory.ValidateNoInventory` (not among
the provided sources): applying is rejected when the applied set
itself contains an inventory object (an object carrying the inventory
label). -/
def ValidateNoInventory (objs : List Unstructured) : Option Err :=
  if objs.any (fun o => decide (o.labelValue InventoryLabel ≠ "")) then
    some .foundLocalInventoryObj
  else none

/-- `Applier.prepareObjects` (applier.go 77-111): validates the
inventory handle and apply set, checks the cluster inventory object's
ID label under the Name strategy, computes the prune set and sorts the
apply set.  `clusterInvObj` is the cluster inventory object returned
by `invClient.GetClusterInventoryObjs` (at most one; the multi-object
panic is outside the model) and `prevInv` the prior inventory
identifier set that `GetPruneObjs` diffs against. -/
def prepareObjects (clusterInvObj : Option Unstructured) (prevInv : List ObjMetadata)
    (localInv : Option InventoryInfo) (localObjs : List Unstructured) :
    Except Err (List Unstructured × List ObjMetadata) :=
  match localInv with
  | none => .error .nilLocalInventory
  | some inv =>
    match ValidateNoInventory localObjs with
    | some e => .error e
    | none =>
      let ok : Except Err (List Unstructured × List ObjMetadata) :=
        .ok (sortObjs localObjs, GetPruneObjs prevInv (localObjs.map Unstructured.id))
      if inv.Strategy = .NameStrategy ∧ inv.ID ≠ "" then
        match clusterInvObj with
        | some invObj =>
          if invObj.labelValue InventoryLabel ≠ inv.ID then .error .inventoryIDMismatch
          else ok
        | none => ok
      else ok

/-- The sequence of events sent on the event channel by the goroutine
started by `Applier.Run` (applier.go 121-198), between channel
creation and the deferred close.  The collaborators appear as
parameters: `prep` is the outcome of `prepareObjects`, `mapperOk` the
outcome of `factory.ToRESTMapper` (`none` is success), `gs` the action
groups of the task queue built by the solver, and
`runnerEvents`/`runnerErr` what the task-status runner emitted on the
channel and returned.  An error at any stage is forwarded to the
channel by `handleError` as a single Error event, after which the
goroutine returns and the deferred close runs. -/
def ApplierRunEvents (prep : Except Err (List Unstructured × List ObjMetadata))
    (mapperOk : Option Err) (gs : List ActionGroup)
    (runnerEvents : List Event) (runnerErr : Option Err) : List Event :=
  match prep with
  | .error e => [.ErrorEv e]
  | .ok _ =>
    match mapperOk with
    | some e => [.ErrorEv e]
    | none =>
      .InitEv gs :: runnerEvents ++
        (match runnerErr with
         | some e => [.ErrorEv e]
         | none => [])

/-! ### Object fixtures (from prune_test.go) -/

def testInvInfo : InventoryInfo :=
  { Name := "test-inventory-obj", Namespace := "test-inventory-namespace",
    ID := "test-app-label" }

def podObj : Unstructured :=
  { GroupKind := { Group := "", Kind := "Pod" },
    Namespace := "test-inventory-namespace", Name := "pod-1", uid := "pod-uid",
    annotations := [(owningInventoryKey, "test-app-label")] }

def pdbObj : Unstructured :=
  { GroupKind := { Group := "policy", Kind := "PodDisruptionBudget" },
    Namespace := "test-inventory-namespace", Name := "pdb", uid := "uid2",
    annotations := [(owningInventoryKey, "test-app-label")] }

def pdbDeleteFailureObj : Unstructured :=
  { GroupKind := { Group := "policy", Kind := "PodDisruptionBudget" },
    Namespace := "test-inventory-namespace", Name := "pdbdelete-failure", uid := "uid2",
    annotations := [(owningInventoryKey, "test-app-label")] }

def roleObj : Unstructured :=
  { GroupKind := { Group := "rbac.authorization.k8s.io", Kind := "Role" },
    Namespace := "test-inventory-namespace", Name := "role", uid := "uid3",
    annotations := [(owningInventoryKey, "test-app-label")] }

def namespaceObj : Unstructured :=
  { GroupKind := { Group := "", Kind := "Namespace" },
    Namespace := "", Name := "test-inventory-namespace", uid := "uid-namespace",
    annotations := [(owningInventoryKey, "test-app-label")] }

def preventDeleteObj : Unstructured :=
  { GroupKind := { Group := "", Kind := "Pod" },
    Namespace := "test-inventory-namespace", Name := "test-prevent-delete",
    uid := "prevent-delete", annotations := [(OnRemoveKey, OnRemoveKeep)] }

/-- An object whose recorded owning inventory is "bar". -/
def mismatchObj : Unstructured :=
  { GroupKind := { Group := "", Kind := "Pod" },
    Namespace := "inventory-namespace", Name := "obj", uid := "uid-obj",
    annotations := [(owningInventoryKey, "bar")] }

/-- The inventory info of part_001's template, with ID label "foo". -/
def invFoo : InventoryInfo :=
  { Name := "inventory-name", Namespace := "inventory-namespace", ID := "foo" }

/-- `defaultOptions` from prune_test.go. -/
def defaultOptions : PruneRunOptions :=
  { DryRunStrategy := .DryRunNone, PropagationPolicy := .Background }

/-- `defaultOptionsDestroy` from prune_test.go. -/
def defaultOptionsDestroy : PruneRunOptions :=
  { DryRunStrategy := .DryRunNone, PropagationPolicy := .Background, Destroy := true }

/-- `clientDryRunOptions` from prune_test.go. -/
def clientDryRunOptions : PruneRunOptions :=
  { DryRunStrategy := .DryRunClient, PropagationPolicy := .Background }

/-- Server-side dry-run options in destroy mode, from prune_test.go. -/
def serverDryRunOptionsDestroy : PruneRunOptions :=
  { DryRunStrategy := .DryRunServer, PropagationPolicy := .Background, Destroy := true }

/-- The fake dynamic client of TestPruneWithErrors: deleting any object
whose name contains "delete-failure" fails. -/
def failingDelete : ObjMetadata → Option Err :=
  fun id => if id = pdbDeleteFailureObj.id then some .expectedDeleteError else none

/-! ## Resource state collector (pkg/printers/table) -/

/-- `resourceInfo` (printer_test.go): the per-object run record of the
resource state collector. -/
structure ResourceInfo where
  identifier : ObjMetadata
  resourceStatus : ResourceStatus
  ResourceAction : ResourceAction
  Error : Option Err := none
  ApplyOpResult : ApplyEventOperation := .ApplyUnspecified
  PruneOpResult : PruneEventOperation := .PruneUnspecified
  DeleteOpResult : DeleteEventOperation := .DeleteUnspecified
  WaitOpResult : WaitEventOperation := .ReconcilePending
deriving DecidableEq

/-- The `resourceInfos` map, embedded as an association list with
unique keys; insertion overwrites an existing key. -/
def upsertInfo (m : List (ObjMetadata × ResourceInfo)) (id : ObjMetadata)
    (ri : ResourceInfo) : List (ObjMetadata × ResourceInfo) :=
  if m.any (fun p => decide (p.1 = id)) then
    m.map (fun p => if p.1 = id then (id, ri) else p)
  else m ++ [(id, ri)]

/-- Map lookup on the embedded `resourceInfos` map. -/
def lookupInfo (m : List (ObjMetadata × ResourceInfo)) (id : ObjMetadata) :
    Option ResourceInfo :=
  (m.find? (fun p => decide (p.1 = id))).map Prod.snd

/-- In-place update of the record at `id`, a no-op when the identifier
is not in the map (events for unrecognized identifiers are ignored). -/
def updateInfo (m : List (ObjMetadata × ResourceInfo)) (id : ObjMetadata)
    (f : ResourceInfo → ResourceInfo) : List (ObjMetadata × ResourceInfo) :=
  m.map (fun p => if p.1 = id then (p.1, f p.2) else p)

/-- `resourceStateCollector` (printer_test.go): the single-writer state
behind the table printer. -/
structure resourceStateCollector where
  resourceInfos : List (ObjMetadata × ResourceInfo)
  err : Option Err := none
deriving DecidableEq

/-- `newResourceStateCollector` (printer_test.go 109-132): one record
per identifier of each non-Wait action group, starting at Unknown
status. -/
def newResourceStateCollector (resourceGroups : List ActionGroup) : resourceStateCollector :=
  { resourceInfos :=
      resourceGroups.foldl (fun m group =>
        if group.Action = .WaitAction then m
        else group.Identifiers.foldl (fun m identifier =>
          upsertInfo m identifier
            { identifier := identifier,
              resourceStatus := { Identifier := identifier, Status := .UnknownStatus },
              ResourceAction := group.Action }) m) [] }

/-- `processValidationEvent` (printer_test.go 292-316). -/
def processValidationEvent (r : resourceStateCollector) (e : ValidationEvent) :
    Except Err resourceStateCollector :=
  if e.Identifiers = [] then .error .emptyValidationIdentifiers
  else
    .ok
      { r with
        resourceInfos :=
          e.Identifiers.foldl (fun m id =>
            updateInfo m id (fun prev =>
              { prev with
                resourceStatus := { Identifier := id, Status := .InvalidStatus } }))
            r.resourceInfos }

/-- `processStatusEvent` (printer_test.go 320-328). -/
def processStatusEvent (r : resourceStateCollector) (e : StatusEvent) :
    resourceStateCollector :=
  { r with
    resourceInfos := updateInfo r.resourceInfos e.Identifier
      (fun prev => { prev with resourceStatus := e.PollResourceInfo }) }

/-- `processApplyEvent` (printer_test.go 331-343). -/
def processApplyEvent (r : resourceStateCollector) (e : ApplyEvent) :
    resourceStateCollector :=
  { r with
    resourceInfos := updateInfo r.resourceInfos e.Identifier
      (fun prev =>
        { prev with
          Error := match e.Error with | some er => some er | none => prev.Error,
          ApplyOpResult := e.Operation }) }

/-- `processPruneEvent` (printer_test.go 346-358). -/
def processPruneEvent (r : resourceStateCollector) (e : PruneEvent) :
    resourceStateCollector :=
  { r with
    resourceInfos := updateInfo r.resourceInfos e.Identifier
      (fun prev =>
        { prev with
          Error := match e.Error with | some er => some er | none => prev.Error,
          PruneOpResult := e.Operation }) }

/-- `processWaitEvent` (printer_test.go 361-370). -/
def processWaitEvent (r : resourceStateCollector) (e : WaitEvent) :
    resourceStateCollector :=
  { r with
    resourceInfos := updateInfo r.resourceInfos e.Identifier
      (fun prev => { prev with WaitOpResult := e.Operation }) }

/-- `processEvent` (printer_test.go 270-288): a Delete or Init event
falls through the switch and leaves the state unchanged; an Error
event aborts processing with its error. -/
def processEvent (r : resourceStateCollector) : Event → Except Err resourceStateCollector
  | .ValidationEv e => processValidationEvent r e
  | .StatusEv e => .ok (processStatusEvent r e)
  | .ApplyEv e => .ok (processApplyEvent r e)
  | .PruneEv e => .ok (processPruneEvent r e)
  | .WaitEv e => .ok (processWaitEvent r e)
  | .ErrorEv er => .error er
  | _ => .ok r

/-- The `Listen` loop (printer_test.go 251-263): events are processed
one at a time in arrival order; the loop stops at the first processing
error. -/
def processEvents (r : resourceStateCollector) : List Event → Except Err resourceStateCollector
  | [] => .ok r
  | e :: es =>
    match processEvent r e with
    | .error er => .error er
    | .ok r2 => processEvents r2 es

/-! ## Stats and the run result (pkg/print/stats, modelled) -/

structure ApplyStats where
  ServersideApplied : Nat := 0
  Created : Nat := 0
  Unchanged : Nat := 0
  Configured : Nat := 0
  Failed : Nat := 0
deriving DecidableEq

/-- Modelled from the spec: `stats.ApplyStats.Inc` (the stats package
is not among the provided sources): bump the counter of the given
apply operation; the zero operation counts nothing. -/
def ApplyStats.Inc (s : ApplyStats) : ApplyEventOperation → ApplyStats
  | .ApplyUnspecified => s
  | .ServersideApplied => { s with ServersideApplied := s.ServersideApplied + 1 }
  | .Created => { s with Created := s.Created + 1 }
  | .Unchanged => { s with Unchanged := s.Unchanged + 1 }
  | .Configured => { s with Configured := s.Configured + 1 }

def ApplyStats.IncFailed (s : ApplyStats) : ApplyStats :=
  { s with Failed := s.Failed + 1 }

structure PruneStats where
  Pruned : Nat := 0
  Skipped : Nat := 0
  Failed : Nat := 0
deriving DecidableEq

/-- Modelled from the spec: `stats.PruneStats.Inc`. -/
def PruneStats.Inc (s : PruneStats) : PruneEventOperation → PruneStats
  | .PruneUnspecified => s
  | .Pruned => { s with Pruned := s.Pruned + 1 }
  | .PruneSkipped => { s with Skipped := s.Skipped + 1 }

def PruneStats.IncFailed (s : PruneStats) : PruneStats :=
  { s with Failed := s.Failed + 1 }

structure DeleteStats where
  Deleted : Nat := 0
  Skipped : Nat := 0
  Failed : Nat := 0
deriving DecidableEq

/-- Modelled from the spec: `stats.DeleteStats.Inc`. -/
def DeleteStats.Inc (s : DeleteStats) : DeleteEventOperation → DeleteStats
  | .DeleteUnspecified => s
  | .Deleted => { s with Deleted := s.Deleted + 1 }
  | .DeleteSkipped => { s with Skipped := s.Skipped + 1 }

def DeleteStats.IncFailed (s : DeleteStats) : DeleteStats :=
  { s with Failed := s.Failed + 1 }

structure WaitStats where
  Reconciled : Nat := 0
  Timeout : Nat := 0
  Failed : Nat := 0
  Skipped : Nat := 0
deriving DecidableEq

/-- Modelled from the spec: `stats.WaitStats.Inc`. -/
def WaitStats.Inc (s : WaitStats) : WaitEventOperation → WaitStats
  | .ReconcilePending => s
  | .Reconciled => { s with Reconciled := s.Reconciled + 1 }
  | .ReconcileSkipped => { s with Skipped := s.Skipped + 1 }
  | .ReconcileTimeout => { s with Timeout := s.Timeout + 1 }
  | .ReconcileFailed => { s with Failed := s.Failed + 1 }

/-- `stats.Stats`: aggregate counters per action type. -/
structure Stats where
  ApplyStats : ApplyStats := {}
  PruneStats : PruneStats := {}
  DeleteStats : DeleteStats := {}
  WaitStats : WaitStats := {}
deriving DecidableEq

/-- `resourceStateCollector.Stats` (printer_test.go 421-444): derived
on demand from the ResourceInfo records. -/
def resourceStateCollector.Stats (r : resourceStateCollector) : Stats :=
  r.resourceInfos.foldl (fun s p =>
    let res := p.2
    let s :=
      match res.ResourceAction with
      | .ApplyAction =>
        let a := if res.Error.isSome then s.ApplyStats.IncFailed else s.ApplyStats
        { s with ApplyStats := a.Inc res.ApplyOpResult }
      | .PruneAction =>
        let a := if res.Error.isSome then s.PruneStats.IncFailed else s.PruneStats
        { s with PruneStats := a.Inc res.PruneOpResult }
      | .DeleteAction =>
        let a := if res.Error.isSome then s.DeleteStats.IncFailed else s.DeleteStats
        { s with DeleteStats := a.Inc res.DeleteOpResult }
      | .WaitAction => s
    { s with WaitStats := s.WaitStats.Inc res.WaitOpResult }) {}

/-- Modelled from the spec (§7): the sum of actuation-failure counters. -/
def Stats.FailedActuationSum (s : Stats) : Nat :=
  s.ApplyStats.Failed + s.PruneStats.Failed + s.DeleteStats.Failed

/-- Modelled from the spec (§7): the sum of reconciliation failure and
timeout counters. -/
def Stats.FailedReconciliationSum (s : Stats) : Nat :=
  s.WaitStats.Failed + s.WaitStats.Timeout

/-- `printcommon.ResultError`: the composite result error carrying the
final Stats snapshot. -/
structure ResultError where
  Stats : Stats
deriving DecidableEq

/-- Modelled from the spec (§7): the caller-visible result of a
completed run — a composite result error carrying the Stats snapshot
iff any failure/timeout counter is non-zero, otherwise no error. -/
def runResult (s : Stats) : Option ResultError :=
  if 0 < s.FailedActuationSum + s.FailedReconciliationSum then some { Stats := s }
  else none

/-! ## The LatestState snapshot -/

/-- `ResourceInfos.Less` (printer_test.go 452-466): strict ordering of
records by namespace, then group, then kind, then name. -/
def RLess (a b : ResourceInfo) : Bool :=
  let idI := a.identifier
  let idJ := b.identifier
  if idI.Namespace ≠ idJ.Namespace then decide (idI.Namespace < idJ.Namespace)
  else if idI.GroupKind.Group ≠ idJ.GroupKind.Group then
    decide (idI.GroupKind.Group < idJ.GroupKind.Group)
  else if idI.GroupKind.Kind ≠ idJ.GroupKind.Kind then
    decide (idI.GroupKind.Kind < idJ.GroupKind.Kind)
  else decide (idI.Name < idJ.Name)

/-- The non-strict complement of `ResourceInfos.Less`: what a
`sort.Sort` output is pairwise ordered by. -/
def RLe (a b : ResourceInfo) : Prop := RLess b a = false

instance : DecidableRel RLe := fun a b => inferInstanceAs (Decidable (RLess b a = false))

/-- The per-record copy made by `LatestState` (printer_test.go
399-410): every field is copied into a fresh record except `Error`,
which is left at its zero value. -/
def copyResourceInfo (ri : ResourceInfo) : ResourceInfo :=
  { identifier := ri.identifier,
    resourceStatus := ri.resourceStatus,
    ResourceAction := ri.ResourceAction,
    ApplyOpResult := ri.ApplyOpResult,
    PruneOpResult := ri.PruneOpResult,
    DeleteOpResult := ri.DeleteOpResult,
    WaitOpResult := ri.WaitOpResult }

/-- `ResourceState` (printer_test.go 372-391). -/
structure ResourceState where
  resourceInfos : List ResourceInfo
  err : Option Err := none
deriving DecidableEq

/-- `resourceStateCollector.LatestState` (printer_test.go 393-417):
a snapshot of copies of the per-resource records, sorted with
`ResourceInfos.Less`.  Go's `sort.Sort` promises a permutation that is
pairwise ordered by the complement of `Less`; it is embedded as an
insertion sort by that relation. -/
def resourceStateCollector.LatestState (r : resourceStateCollector) : ResourceState :=
  { resourceInfos :=
      List.insertionSort RLe (r.resourceInfos.map (fun p => copyResourceInfo p.2)),
    err := r.err }

/-! ### Collector fixtures (from printers/testutil/common.go) -/

/-- The deployment identifier of `PrintResultErrorTest`. -/
def deploymentId : ObjMetadata :=
  { Namespace := "bar", Name := "foo",
    GroupKind := { Group := "apps", Kind := "Deployment" } }

/-- The two action groups of the `PrintResultErrorTest` Init event. -/
def printTestGroups : List ActionGroup :=
  [{ Name := "apply-1", Action := .ApplyAction, Identifiers := [deploymentId] },
   { Name := "wait-1", Action := .WaitAction, Identifiers := [deploymentId] }]

/-- The "successful apply, failed reconcile" event tail of
`PrintResultErrorTest`. -/
def applyFailedReconcileEvents : List Event :=
  [.ApplyEv { Operation := .Created, Identifier := deploymentId },
   .WaitEv { Operation := .ReconcileFailed, Identifier := deploymentId }]

/-- The "successful apply, prune and reconcile" event tail of
`PrintResultErrorTest`. -/
def applyReconciledEvents : List Event :=
  [.ApplyEv { Operation := .Created, Identifier := deploymentId },
   .WaitEv { Operation := .Reconciled, Identifier := deploymentId }]

/-- A collector holding one apply record carrying an error (the state
after processing a failed apply event). -/
def collectorWithError : resourceStateCollector :=
  processApplyEvent
    (newResourceStateCollector
      [{ Name := "apply-1", Action := .ApplyAction, Identifiers := [deploymentId] }])
    { Operation := .ApplyUnspecified, Identifier := deploymentId,
      Error := some .expectedDeleteError }

/-! ## ConfigMap inventory backend (pkg/inventory, common.go) -/

/-- The separator of the four identifier fields inside an inventory
data-map key (`object.fieldSeparator`). -/
def fieldSeparator : Char := '_'

/-- Split a character list at every occurrence of `sep`. -/
def splitSep (sep : Char) : List Char → List (List Char)
  | [] => [[]]
  | c :: cs =>
    match splitSep sep cs with
    | [] => [[]]
    | h :: t => if c = sep then [] :: h :: t else (c :: h) :: t

/-- Modelled from the spec: `object.ObjMetadata.String` (the object
package is not among the provided sources): the stable identifier key
of an object — its namespace, name, group and kind joined by the
field separator. -/
def ObjMetadata.toKey (m : ObjMetadata) : String :=
  ⟨m.Namespace.data ++ fieldSeparator ::
    (m.Name.data ++ fieldSeparator ::
      (m.GroupKind.Group.data ++ fieldSeparator :: m.GroupKind.Kind.data))⟩

/-- Modelled from the spec: `object.ParseObjMetadata`: the inverse of
`toKey`, failing when the key does not consist of exactly four
fields. -/
def ParseObjMetadata (s : String) : Option ObjMetadata :=
  match splitSep fieldSeparator s.data with
  | [ns, n, g, k] =>
    some { Namespace := ⟨ns⟩, Name := ⟨n⟩,
           GroupKind := { Group := ⟨g⟩, Kind := ⟨k⟩ } }
  | _ => none

/-- An identifier whose four fields avoid the field separator
(Kubernetes names and namespaces cannot contain an underscore). -/
def NoSep (m : ObjMetadata) : Prop :=
  fieldSeparator ∉ m.Namespace.data ∧ fieldSeparator ∉ m.Name.data ∧
  fieldSeparator ∉ m.GroupKind.Group.data ∧ fieldSeparator ∉ m.GroupKind.Kind.data

instance (m : ObjMetadata) : Decidable (NoSep m) :=
  inferInstanceAs (Decidable (_ ∧ _ ∧ _ ∧ _))

/-- Insertion into a Go string map embedded as an association list. -/
def insertKey (m : List (String × String)) (k v : String) : List (String × String) :=
  if m.any (fun p => decide (p.1 = k)) then
    m.map (fun p => if p.1 = k then (k, v) else p)
  else m ++ [(k, v)]

/-- `buildObjMap` (common.go 323-329): the data map holding one key per
identifier with an empty value. -/
def buildObjMap (objMetas : List ObjMetadata) : List (String × String) :=
  objMetas.foldl (fun objMap m => insertKey objMap m.toKey "") []

/-- The ConfigMap resource document wrapped by the inventory backend:
name, namespace, labels and the optional "data" section. -/
structure ConfigMapObj where
  Name : String
  Namespace : String
  labels : List (String × String) := []
  data : Option (List (String × String)) := none
deriving DecidableEq

/-- `inventory.ConfigMap` (common.go 246-252): wraps a ConfigMap
resource plus the staged object metadata set. -/
structure ConfigMap where
  inv : ConfigMapObj
  objMetas : List ObjMetadata := []
deriving DecidableEq

/-- `WrapInventoryObj` (common.go 224-229). -/
def WrapInventoryObj (inv : ConfigMapObj) : ConfigMap := { inv := inv }

/-- `ConfigMap.Store` (common.go 299-305): stages the metadata; the
actual storing happens in `GetObject`. -/
def ConfigMap.Store (icm : ConfigMap) (objMetas : List ObjMetadata) : ConfigMap :=
  { icm with objMetas := objMetas }

/-- `ConfigMap.GetObject` (common.go 307-321): builds the data map and
sets it on a deep copy of the wrapped template, leaving the template
itself untouched. -/
def ConfigMap.GetObject (icm : ConfigMap) : ConfigMapObj :=
  { icm.inv with data := some (buildObjMap icm.objMetas) }

/-- Parse every key of a data map, failing at the first bad key. -/
def loadKeys : List String → Except Err (List ObjMetadata)
  | [] => .ok []
  | k :: ks =>
    match ParseObjMetadata k with
    | none => .error .parseFailure
    | some m =>
      match loadKeys ks with
      | .error e => .error e
      | .ok ms => .ok (m :: ms)

/-- `ConfigMap.Load` (common.go 278-297): the object metadata parsed
from the keys of the wrapped ConfigMap's data section; a missing data
section reads as the empty set. -/
def ConfigMap.Load (icm : ConfigMap) : Except Err (List ObjMetadata) :=
  match icm.inv.data with
  | none => .ok []
  | some objMap => loadKeys (objMap.map Prod.fst)

/-- The inventory ConfigMap template fixture of prune_test.go. -/
def inventoryTemplate : ConfigMapObj :=
  { Name := "test-inventory-obj", Namespace := "test-inventory-namespace",
    labels := [(InventoryLabel, "test-app-label")] }

/-! # Theorems -/

/-- C1: for every previous inventory identifier set `P` and desired
identifier set `D`, the prune candidate set computed by `GetPruneObjs`
is exactly the set difference `P \ D`; it is empty iff `P ⊆ D`; an
empty `P` yields an empty prune set and an empty `D` yields all of
`P`. -/
theorem getPruneObjs_set_difference (P D : List ObjMetadata) :
    (∀ x, x ∈ GetPruneObjs P D ↔ x ∈ P ∧ x ∉ D) ∧
    (GetPruneObjs P D = [] ↔ ∀ x ∈ P, x ∈ D) ∧
    (P = [] → GetPruneObjs P D = []) ∧
    (D = [] → GetPruneObjs P D = P) := by
  refine ⟨?_, ?_, ?_, ?_⟩
  · intro x
    simp [GetPruneObjs, List.mem_filter]
  · rw [List.eq_nil_iff_forall_not_mem]
    constructor
    · intro h x hxP
      by_contra hxD
      exact h x (by simp [GetPruneObjs, List.mem_filter, hxP, hxD])
    · intro h x hx
      simp only [GetPruneObjs, List.mem_filter, decide_eq_true_eq] at hx
      exact hx.2 (h x hx.1)
  · intro h; subst h; rfl
  · intro h; subst h
    simp [GetPruneObjs]

/-- Witness for C1 at concrete inputs. -/
theorem getPruneObjs_set_difference_witness :
    GetPruneObjs [podId, pdbId, namespaceId] [] = [podId, pdbId, namespaceId] :=
  (getPruneObjs_set_difference [podId, pdbId, namespaceId] []).2.2.2 rfl

/-- Prepending filters that pass leaves the chain evaluation unchanged. -/
theorem runFilters_append_passed (obj : Unstructured) (rest : List ValidationFilter) :
    ∀ fs₁ : List ValidationFilter, (∀ g ∈ fs₁, g.Filter obj = (false, none)) →
      runFilters (fs₁ ++ rest) obj = runFilters rest obj
  | [], _ => rfl
  | g :: gs, h => by
    have hg := h g (List.mem_cons_self g gs)
    simp only [List.cons_append, runFilters, hg]
    exact runFilters_append_passed obj rest gs (fun x hx => h x (List.mem_cons_of_mem _ hx))

/-- Evaluating a chain headed by an error-free filter. -/
theorem runFilters_cons_noerr (f : ValidationFilter) (fs : List ValidationFilter)
    (obj : Unstructured) (b : Bool) (h : f.Filter obj = (b, none)) :
    runFilters (f :: fs) obj = if b then some none else runFilters fs obj := by
  cases b <;> simp [runFilters, h]

/-- C3: filter-chain evaluation short-circuits: with every filter of
`fs₁` passing, the filter `f` determines the outcome whenever it skips
or errors — the filters `fs₂` after it are never consulted, the
skipped object issues no remote delete call, and its outcome event is
`PruneSkipped`/`DeleteSkipped` carrying `f`'s reason or error; if no
filter halts the chain, the object proceeds to deletion. -/
theorem filter_chain_short_circuits
    (fs₁ fs₂ : List ValidationFilter) (f : ValidationFilter)
    (obj : Unstructured) (opts : PruneRunOptions)
    (deleteResult : ObjMetadata → Option Err)
    (hpass : ∀ g ∈ fs₁, g.Filter obj = (false, none)) :
    ((f.Filter obj).2.isSome ∨ (f.Filter obj).1 = true →
      ∀ fs₂tl : List ValidationFilter,
        runFilters (fs₁ ++ f :: fs₂) obj = runFilters (fs₁ ++ f :: fs₂tl) obj) ∧
    (∀ e, (f.Filter obj).2 = some e →
      pruneObject deleteResult (fs₁ ++ f :: fs₂) opts obj =
        ([], skippedEvent opts obj.id (some e))) ∧
    (f.Filter obj = (true, none) →
      pruneObject deleteResult (fs₁ ++ f :: fs₂) opts obj =
        ([], skippedEvent opts obj.id none)) ∧
    (runFilters (fs₁ ++ f :: fs₂) obj = none → opts.DryRunStrategy = .DryRunNone →
      (pruneObject deleteResult (fs₁ ++ f :: fs₂) opts obj).1 =
        [{ Identifier := obj.id, DryRun := false,
           PropagationPolicy := opts.PropagationPolicy }]) := by
  have key : ∀ fs : List ValidationFilter,
      ((f.Filter obj).2.isSome ∨ (f.Filter obj).1 = true) →
      runFilters (fs₁ ++ f :: fs) obj =
        some (if (f.Filter obj).2.isSome then (f.Filter obj).2 else none) := by
    intro fs hf
    rw [runFilters_append_passed obj (f :: fs) fs₁ hpass]
    rcases hfe : f.Filter obj with ⟨b, oe⟩
    cases oe with
    | some e => simp [runFilters, hfe]
    | none =>
      cases b with
      | false => simp [hfe] at hf
      | true => simp [runFilters, hfe]
  refine ⟨?_, ?_, ?_, ?_⟩
  · intro hf fs₂tl
    rw [key fs₂ hf, key fs₂tl hf]
  · intro e he
    have h1 := key fs₂ (Or.inl (by simp [he]))
    rw [pruneObject, h1]
    simp [he]
  · intro hfe
    have h1 := key fs₂ (Or.inr (by simp [hfe]))
    rw [pruneObject, h1]
    simp [hfe]
  · intro hnone hdry
    rw [pruneObject, hnone, hdry]
    cases hd : deleteResult obj.id <;> simp [hd]

/-- Witness for C3 at concrete inputs: a chain whose head filter skips
the prevent-delete object. -/
theorem filter_chain_short_circuits_witness :
    pruneObject failingDelete ([] ++ PreventRemoveFilter :: [CurrentUIDFilter ∅])
        defaultOptions preventDeleteObj =
      ([], skippedEvent defaultOptions preventDeleteObj.id none) :=
  (filter_chain_short_circuits [] [CurrentUIDFilter ∅] PreventRemoveFilter
    preventDeleteObj defaultOptions failingDelete (by intro g hg; cases hg)).2.2.1
    (by decide)

/-- C5: a remote delete failure is recorded on that candidate's own
outcome event only: the engine still emits one outcome event per
candidate, emits the successful outcome for every candidate whose
delete succeeds, and returns without a run-level error. -/
theorem prune_isolates_delete_failures
    (deleteResult : ObjMetadata → Option Err) (pruneObjs : List Unstructured)
    (filters : List ValidationFilter) (opts : PruneRunOptions) :
    (Prune deleteResult pruneObjs filters opts).2.2 = none ∧
    (Prune deleteResult pruneObjs filters opts).2.1.length = pruneObjs.length ∧
    (∀ obj ∈ pruneObjs, runFilters filters obj = none →
      opts.DryRunStrategy = .DryRunNone →
      ∀ e, deleteResult obj.id = some e →
        failedEvent opts obj.id e ∈ (Prune deleteResult pruneObjs filters opts).2.1) ∧
    (∀ obj ∈ pruneObjs, runFilters filters obj = none →
      opts.DryRunStrategy = .DryRunNone →
      deleteResult obj.id = none →
        successEvent opts obj.id ∈ (Prune deleteResult pruneObjs filters opts).2.1) := by
  refine ⟨rfl, by simp [Prune], ?_, ?_⟩
  · intro obj hmem hrf hdry e hdel
    have heq : (pruneObject deleteResult filters opts obj).2 = failedEvent opts obj.id e := by
      rw [pruneObject, hrf, hdry]
      simp [hdel]
    have hm : (pruneObject deleteResult filters opts obj).2 ∈
        (Prune deleteResult pruneObjs filters opts).2.1 := by
      simp only [Prune, List.map_map]
      exact List.mem_map_of_mem _ hmem
    exact heq ▸ hm
  · intro obj hmem hrf hdry hdel
    have heq : (pruneObject deleteResult filters opts obj).2 = successEvent opts obj.id := by
      rw [pruneObject, hrf, hdry]
      simp [hdel]
    have hm : (pruneObject deleteResult filters opts obj).2 ∈
        (Prune deleteResult pruneObjs filters opts).2.1 := by
      simp only [Prune, List.map_map]
      exact List.mem_map_of_mem _ hmem
    exact heq ▸ hm

/-- Witness for C5: destroy mode over three candidates where the
middle delete fails: the run-level error is nil, three events are
emitted, the failing identifier's event carries the delete error, and
the other two candidates get `Deleted` events. -/
theorem prune_isolates_delete_failures_witness :
    (Prune failingDelete [podObj, pdbDeleteFailureObj, roleObj] [] defaultOptionsDestroy).2.2
      = none ∧
    (Prune failingDelete [podObj, pdbDeleteFailureObj, roleObj] [] defaultOptionsDestroy).2.1.length
      = 3 ∧
    failedEvent defaultOptionsDestroy pdbDeleteFailureObj.id .expectedDeleteError
      ∈ (Prune failingDelete [podObj, pdbDeleteFailureObj, roleObj] [] defaultOptionsDestroy).2.1 ∧
    successEvent defaultOptionsDestroy podObj.id
      ∈ (Prune failingDelete [podObj, pdbDeleteFailureObj, roleObj] [] defaultOptionsDestroy).2.1 ∧
    successEvent defaultOptionsDestroy roleObj.id
      ∈ (Prune failingDelete [podObj, pdbDeleteFailureObj, roleObj] [] defaultOptionsDestroy).2.1 := by
  have h := prune_isolates_delete_failures failingDelete
    [podObj, pdbDeleteFailureObj, roleObj] [] defaultOptionsDestroy
  refine ⟨h.1, h.2.1, ?_, ?_, ?_⟩
  · exact h.2.2.1 pdbDeleteFailureObj (by decide) rfl rfl .expectedDeleteError (by decide)
  · exact h.2.2.2 podObj (by decide) rfl rfl (by decide)
  · exact h.2.2.2 roleObj (by decide) rfl rfl (by decide)

/-- C8: dry-run suppression: under `Client` dry-run the engine issues
no mutating delete call at all (for the candidate, and over a whole
run) yet still emits the successful outcome event; under `Server`
dry-run it issues the delete call with the server-side dry-run flag
set and likewise emits the successful outcome event. -/
theorem dry_run_suppresses_mutations
    (deleteResult : ObjMetadata → Option Err) (filters : List ValidationFilter)
    (obj : Unstructured) (pruneObjs : List Unstructured)
    (optsC optsS : PruneRunOptions)
    (hC : optsC.DryRunStrategy = .DryRunClient)
    (hS : optsS.DryRunStrategy = .DryRunServer)
    (hpass : runFilters filters obj = none)
    (hdel : deleteResult obj.id = none) :
    pruneObject deleteResult filters optsC obj = ([], successEvent optsC obj.id) ∧
    (Prune deleteResult pruneObjs filters optsC).1 = [] ∧
    pruneObject deleteResult filters optsS obj =
      ([{ Identifier := obj.id, DryRun := true,
          PropagationPolicy := optsS.PropagationPolicy }],
        successEvent optsS obj.id) := by
  refine ⟨?_, ?_, ?_⟩
  · rw [pruneObject, hpass, hC]
  · rw [Prune]
    simp only [List.flatten_eq_nil_iff, List.mem_map]
    rintro calls ⟨r, ⟨o, _, rfl⟩, rfl⟩
    rw [pruneObject]
    cases hrf : runFilters filters o with
    | some e => rfl
    | none => rw [hC]
  · rw [pruneObject, hpass, hS]
    simp [hdel]

/-- Witness for C8 at concrete inputs. -/
theorem dry_run_suppresses_mutations_witness :
    pruneObject (fun _ => none) [] clientDryRunOptions podObj =
      ([], successEvent clientDryRunOptions podObj.id) ∧
    (Prune (fun _ => none) [podObj] [] clientDryRunOptions).1 = [] ∧
    pruneObject (fun _ => none) [] serverDryRunOptionsDestroy podObj =
      ([{ Identifier := podObj.id, DryRun := true,
          PropagationPolicy := serverDryRunOptionsDestroy.PropagationPolicy }],
        successEvent serverDryRunOptionsDestroy podObj.id) :=
  dry_run_suppresses_mutations (fun _ => none) [] podObj [podObj]
    clientDryRunOptions serverDryRunOptionsDestroy rfl rfl rfl rfl

/-- C4 counterexample: under the strict `MustMatch` policy, a prune
candidate whose recorded owning-inventory identifier ("bar") does not
match the current inventory's identifier ("foo") is skipped by
`InventoryPolicyFilter.Filter` with NO error — the filter returns
`(true, none)`, contradicting the claim that a `MustMatch` mismatch is
additionally reported as an error from the filter. -/
theorem inventoryPolicyFilter_mismatch_no_error :
    (InventoryPolicyFilter invFoo .MustMatch).Filter mismatchObj = (true, none) := by
  decide

/-- C4 (amended): the prune-path inventory-policy filter skips a
candidate exactly when its recorded owning-inventory identifier does
not satisfy the policy (`MustMatch`: must equal the inventory ID;
`AdoptIfNoInventory`: must equal it or be empty; `AdoptAll`: never
skips), and it never returns an error — under `MustMatch` a mismatch
is a plain skip. -/
theorem inventoryPolicyFilter_skips_never_errors
    (inv : InventoryInfo) (policy : InventoryPolicy) (obj : Unstructured) :
    ((InventoryPolicyFilter inv policy).Filter obj).2 = none ∧
    (((InventoryPolicyFilter inv policy).Filter obj).1 = true ↔
      (match policy with
       | .MustMatch => obj.annoValue owningInventoryKey ≠ inv.ID
       | .AdoptIfNoInventory =>
           obj.annoValue owningInventoryKey ≠ inv.ID ∧
           obj.annoValue owningInventoryKey ≠ ""
       | .AdoptAll => False)) := by
  refine ⟨rfl, ?_⟩
  cases policy <;> simp [InventoryPolicyFilter, CanPrune]

/-- Membership in the namespace-accumulating fold of `localNamespaces`. -/
theorem mem_localNamespaces_foldl (n : String) :
    ∀ (l : List ObjMetadata) (acc : Finset String),
      (n ∈ l.foldl (fun acc obj =>
          let ns := trimSpace (toLowerStr obj.Namespace)
          if ns ≠ "" then insert ns acc else acc) acc) ↔
        n ∈ acc ∨ ∃ o ∈ l, trimSpace (toLowerStr o.Namespace) = n ∧ n ≠ ""
  | [], acc => by simp
  | o :: os, acc => by
    simp only [List.foldl_cons]
    by_cases h : trimSpace (toLowerStr o.Namespace) = ""
    · rw [if_neg (by simp [h])]
      rw [mem_localNamespaces_foldl n os acc]
      constructor
      · rintro (ha | ⟨x, hx, hxn, hne⟩)
        · exact Or.inl ha
        · exact Or.inr ⟨x, List.mem_cons_of_mem _ hx, hxn, hne⟩
      · rintro (ha | ⟨x, hx, hxn, hne⟩)
        · exact Or.inl ha
        · rcases List.mem_cons.mp hx with rfl | hx2
          · exact absurd (by rw [← hxn, h]) hne
          · exact Or.inr ⟨x, hx2, hxn, hne⟩
    · rw [if_pos (by simp [h])]
      rw [mem_localNamespaces_foldl n os _]
      simp only [Finset.mem_insert]
      constructor
      · rintro ((rfl | ha) | ⟨x, hx, hxn, hne⟩)
        · exact Or.inr ⟨o, List.mem_cons_self o os, rfl, h⟩
        · exact Or.inl ha
        · exact Or.inr ⟨x, List.mem_cons_of_mem _ hx, hxn, hne⟩
      · rintro (ha | ⟨x, hx, hxn, hne⟩)
        · exact Or.inl (Or.inr ha)
        · rcases List.mem_cons.mp hx with rfl | hx2
          · exact Or.inl (Or.inl hxn.symm)
          · exact Or.inr ⟨x, hx2, hxn, hne⟩

/-- Characterization of `localNamespaces`: the normalized namespaces of
the passed objects plus the normalized inventory namespace, without the
empty string. -/
theorem mem_localNamespaces (inv : InventoryInfo) (objs : List ObjMetadata) (n : String) :
    n ∈ localNamespaces inv objs ↔
      ((∃ o ∈ objs, trimSpace (toLowerStr o.Namespace) = n) ∨
        trimSpace (toLowerStr inv.Namespace) = n) ∧ n ≠ "" := by
  rw [localNamespaces]
  by_cases h : trimSpace (toLowerStr inv.Namespace) = ""
  · rw [if_neg (by simp [h])]
    rw [mem_localNamespaces_foldl]
    simp only [Finset.not_mem_empty, false_or]
    constructor
    · rintro ⟨o, ho, hon, hne⟩
      exact ⟨Or.inl ⟨o, ho, hon⟩, hne⟩
    · rintro ⟨ho | hinv, hne⟩
      · rcases ho with ⟨o, ho, hon⟩
        exact ⟨o, ho, hon, hne⟩
      · exact absurd (by rw [← hinv, h]) hne
  · rw [if_pos (by simp [h])]
    simp only [Finset.mem_insert]
    rw [mem_localNamespaces_foldl]
    simp only [Finset.not_mem_empty, false_or]
    constructor
    · rintro (rfl | ⟨o, ho, hon, hne⟩)
      · exact ⟨Or.inr rfl, h⟩
      · exact ⟨Or.inl ⟨o, ho, hon⟩, hne⟩
    · rintro ⟨⟨o, ho, hon⟩ | hinv, hne⟩
      · exact Or.inr ⟨o, ho, hon, hne⟩
      · exact Or.inl hinv.symm

/-- An error-free filter chain in which some filter skips evaluates to
a plain skip. -/
theorem runFilters_noerr_skip (obj : Unstructured) :
    ∀ fs : List ValidationFilter,
      (∀ g ∈ fs, (g.Filter obj).2 = none) →
      (∃ g ∈ fs, (g.Filter obj).1 = true) →
      runFilters fs obj = some none
  | [], _, hskip => by simp at hskip
  | f :: fs, hne, hskip => by
    rcases hfe : f.Filter obj with ⟨b, oe⟩
    have hoe : oe = none := by
      have := hne f (List.mem_cons_self f fs)
      rw [hfe] at this
      exact this
    subst hoe
    cases b with
    | true => rw [runFilters_cons_noerr f fs obj true hfe]; rfl
    | false =>
      rw [runFilters_cons_noerr f fs obj false hfe]
      simp only [Bool.false_eq_true, if_false]
      apply runFilters_noerr_skip obj fs (fun g hg => hne g (List.mem_cons_of_mem _ hg))
      rcases hskip with ⟨g, hg, hgs⟩
      rcases List.mem_cons.mp hg with rfl | h2
      · rw [hfe] at hgs; cases hgs
      · exact ⟨g, h2, hgs⟩

/-- C2: with the filter chain built by `Applier.Run`, a prune candidate
that is a Namespace object whose name is in `localNamespaces` receives
outcome `PruneSkipped` and is never deleted (no delete call is
issued); and for namespace strings that are already normalized
(lower-case, no surrounding space), the protected set passed to the
`LocalNamespacesFilter` is exactly the set of non-empty namespaces of
the desired objects plus the inventory's namespace. -/
theorem protected_namespace_never_pruned
    (invInfo : InventoryInfo) (policy : InventoryPolicy)
    (objects : List Unstructured) (deleteResult : ObjMetadata → Option Err)
    (opts : PruneRunOptions) (obj : Unstructured)
    (hdestroy : opts.Destroy = false)
    (hkind : obj.GroupKind = { Group := "", Kind := "Namespace" })
    (hprotected : obj.Name ∈ localNamespaces invInfo (objects.map Unstructured.id)) :
    pruneObject deleteResult (applierPruneFilters invInfo policy objects) opts obj =
      ([], .PruneEv { Operation := .PruneSkipped, Identifier := obj.id, Error := none }) ∧
    (∀ n, (∀ o ∈ objects, trimSpace (toLowerStr o.Namespace) = o.Namespace) →
      (trimSpace (toLowerStr invInfo.Namespace) = invInfo.Namespace) →
      (n ∈ localNamespaces invInfo (objects.map Unstructured.id) ↔
        ((∃ o ∈ objects, o.Namespace = n) ∨ invInfo.Namespace = n) ∧ n ≠ "")) := by
  constructor
  · have hrf : runFilters (applierPruneFilters invInfo policy objects) obj = some none := by
      apply runFilters_noerr_skip
      · intro g hg
        simp only [applierPruneFilters, List.mem_cons, List.mem_singleton] at hg
        rcases hg with rfl | rfl | rfl | h
        · rfl
        · rfl
        · rfl
        · cases h
      · refine ⟨LocalNamespacesFilter (localNamespaces invInfo (objects.map Unstructured.id)),
          by simp [applierPruneFilters], ?_⟩
        simp [LocalNamespacesFilter, hkind, hprotected]
    rw [pruneObject, hrf]
    simp [skippedEvent, hdestroy]
  · intro n hno hninv
    rw [mem_localNamespaces]
    constructor
    · rintro ⟨⟨oid, hoid, heq⟩ | hinv, hne⟩
      · rcases List.mem_map.mp hoid with ⟨o, ho, rfl⟩
        refine ⟨Or.inl ⟨o, ho, ?_⟩, hne⟩
        rw [← hno o ho]
        exact heq
      · refine ⟨Or.inr ?_, hne⟩
        rw [← hninv]
        exact hinv
    · rintro ⟨⟨o, ho, hon⟩ | hinv, hne⟩
      · refine ⟨Or.inl ⟨o.id, List.mem_map_of_mem _ ho, ?_⟩, hne⟩
        show trimSpace (toLowerStr o.Namespace) = n
        rw [hno o ho]
        exact hon
      · refine ⟨Or.inr ?_, hne⟩
        rw [hninv]
        exact hinv

/-- Witness for C2 at concrete inputs: the test namespace object is
skipped when the desired set holds a pod living in that namespace. -/
theorem protected_namespace_never_pruned_witness :
    pruneObject (fun _ => none) (applierPruneFilters testInvInfo .MustMatch [podObj])
        defaultOptions namespaceObj =
      ([], .PruneEv { Operation := .PruneSkipped, Identifier := namespaceObj.id,
                      Error := none }) ∧
    ("test-inventory-namespace" ∈
        localNamespaces testInvInfo ([podObj].map Unstructured.id) ↔
      ((∃ o ∈ [podObj], o.Namespace = "test-inventory-namespace") ∨
        testInvInfo.Namespace = "test-inventory-namespace") ∧
        "test-inventory-namespace" ≠ "") := by
  have h := protected_namespace_never_pruned testInvInfo .MustMatch [podObj]
    (fun _ => none) defaultOptions namespaceObj rfl rfl (by decide)
  exact ⟨h.1, h.2 "test-inventory-namespace" (by decide) (by decide)⟩

/-- In a list whose non-final elements all fail `P`, any decomposition
at an element satisfying `P` has nothing after that element. -/
theorem sat_only_last {P : Event → Bool} :
    ∀ (pre : List Event) (l post : List Event) (a : Event),
      (∀ x ∈ l.dropLast, P x = false) → l = pre ++ a :: post → P a = true → post = []
  | [], l, post, a, hdl, hsplit, hPa => by
    subst hsplit
    cases post with
    | nil => rfl
    | cons q qs =>
      exfalso
      have : a ∈ (a :: q :: qs).dropLast := by
        rw [List.dropLast_cons_of_ne_nil (by simp)]
        exact List.mem_cons_self a _
      rw [hdl a this] at hPa
      cases hPa
  | p :: ps, l, post, a, hdl, hsplit, hPa => by
    subst hsplit
    refine sat_only_last ps (ps ++ a :: post) post a ?_ rfl hPa
    intro x hx
    apply hdl
    rw [List.cons_append, List.dropLast_cons_of_ne_nil (by simp)]
    exact List.mem_cons_of_mem _ hx

/-- C6 counterexample: a run whose preparation fails (nil local
inventory) emits a single Error event and no Init event at all — its
first (and only) event is `ErrorEv`, so the first event of a run is
not always an Init event. -/
theorem run_first_event_not_always_init :
    ApplierRunEvents (prepareObjects none [] none []) none [] [] none =
      [.ErrorEv .nilLocalInventory] := by
  rfl

/-- C6 (amended): for every run whose preparation (prepareObjects and
REST-mapper lookup) succeeds, the first event on the stream is exactly
one Init event carrying the ActionGroup plan; a run that fails
preparation instead emits a single Error event as its only event.  In
all cases the stream contains at most one fatal Error event and no
event follows a fatal Error event, after which the single deferred
close runs. -/
theorem run_stream_init_first_and_fatal_last
    (prep : Except Err (List Unstructured × List ObjMetadata))
    (mapperOk : Option Err) (gs : List ActionGroup)
    (runnerEvents : List Event) (runnerErr : Option Err)
    (hre : ∀ e ∈ runnerEvents, e.isError = false) :
    (∀ r, prep = .ok r → mapperOk = none →
      (ApplierRunEvents prep mapperOk gs runnerEvents runnerErr).head? =
        some (.InitEv gs)) ∧
    (∀ e, prep = .error e →
      ApplierRunEvents prep mapperOk gs runnerEvents runnerErr = [.ErrorEv e]) ∧
    ((ApplierRunEvents prep mapperOk gs runnerEvents runnerErr).countP
        Event.isError ≤ 1) ∧
    (∀ pre e post,
      ApplierRunEvents prep mapperOk gs runnerEvents runnerErr =
        pre ++ Event.ErrorEv e :: post → post = []) := by
  have hcnt0 : runnerEvents.countP Event.isError = 0 :=
    List.countP_eq_zero.mpr (by intro x hx; simp [hre x hx])
  refine ⟨?_, ?_, ?_, ?_⟩
  · rintro r rfl hm
    subst hm
    rfl
  · rintro e rfl
    rfl
  · cases prep with
    | error e => simp [ApplierRunEvents, Event.isError]
    | ok r =>
      cases mapperOk with
      | some e => simp [ApplierRunEvents, Event.isError]
      | none =>
        cases runnerErr with
        | some e =>
          simp [ApplierRunEvents, List.countP_cons, List.countP_append,
            Event.isError, hcnt0]
        | none =>
          simp [ApplierRunEvents, List.countP_cons, List.countP_append,
            Event.isError, hcnt0]
  · intro pre e post hsplit
    refine sat_only_last (P := Event.isError) pre
      (ApplierRunEvents prep mapperOk gs runnerEvents runnerErr)
      post (Event.ErrorEv e) ?_ hsplit rfl
    intro x hx
    cases prep with
    | error e2 =>
      simp only [ApplierRunEvents, List.dropLast_single] at hx
      cases hx
    | ok r =>
      cases mapperOk with
      | some e2 =>
        simp only [ApplierRunEvents, List.dropLast_single] at hx
        cases hx
      | none =>
        cases runnerErr with
        | some e2 =>
          simp only [ApplierRunEvents] at hx
          have hdrop : (Event.InitEv gs :: runnerEvents ++ [Event.ErrorEv e2]).dropLast =
              Event.InitEv gs :: runnerEvents := by
            rw [show Event.InitEv gs :: runnerEvents ++ [Event.ErrorEv e2] =
              (Event.InitEv gs :: runnerEvents) ++ [Event.ErrorEv e2] from rfl]
            exact List.dropLast_concat
          rw [hdrop] at hx
          rcases List.mem_cons.mp hx with rfl | hx2
          · rfl
          · exact hre x hx2
        | none =>
          simp only [ApplierRunEvents, List.append_nil] at hx
          cases hdl : runnerEvents with
          | nil => subst hdl; cases hx
          | cons q qs =>
            subst hdl
            rw [List.dropLast_cons_of_ne_nil (by simp)] at hx
            rcases List.mem_cons.mp hx with rfl | hx2
            · rfl
            · exact hre x (List.dropLast_sublist _ |>.mem hx2)

/-- Witness for C6 at concrete inputs: a run with successful
preparation has the Init event first. -/
theorem run_stream_init_first_and_fatal_last_witness :
    (ApplierRunEvents (.ok ([], [])) none [] [] none).head? =
      some (.InitEv []) ∧
    (ApplierRunEvents (.ok ([], [])) none [] [] none).countP Event.isError ≤ 1 :=
  ⟨(run_stream_init_first_and_fatal_last (.ok ([], [])) none [] [] none
      (by intro e he; cases he)).1 ([], []) rfl rfl,
   (run_stream_init_first_and_fatal_last (.ok ([], [])) none [] [] none
      (by intro e he; cases he)).2.2.1⟩

/-- `ResourceInfos.Less` agrees with the lexicographic order on the
(namespace, group, kind, name) key. -/
theorem RLess_iff (a b : ResourceInfo) :
    RLess a b = true ↔
      (toLex (a.identifier.Namespace, toLex (a.identifier.GroupKind.Group,
        toLex (a.identifier.GroupKind.Kind, a.identifier.Name))) <
       toLex (b.identifier.Namespace, toLex (b.identifier.GroupKind.Group,
        toLex (b.identifier.GroupKind.Kind, b.identifier.Name)))) := by
  simp only [RLess, Prod.Lex.lt_iff]
  by_cases h1 : a.identifier.Namespace = b.identifier.Namespace
  · by_cases h2 : a.identifier.GroupKind.Group = b.identifier.GroupKind.Group
    · by_cases h3 : a.identifier.GroupKind.Kind = b.identifier.GroupKind.Kind
      · simp [h1, h2, h3, lt_irrefl]
      · simp [h1, h2, h3, lt_irrefl]
    · simp [h1, h2, lt_irrefl]
  · simp [h1]

/-- `RLe` is total. -/
theorem RLe_total (a b : ResourceInfo) : RLe a b ∨ RLe b a := by
  rw [RLe, RLe]
  by_contra hcon
  push_neg at hcon
  rcases hcon with ⟨h1, h2⟩
  have l1 := (RLess_iff b a).mp (Bool.not_eq_false _ |>.mp h1)
  have l2 := (RLess_iff a b).mp (Bool.not_eq_false _ |>.mp h2)
  exact absurd l2 (lt_asymm l1)

/-- `RLe` is transitive. -/
theorem RLe_trans (a b c : ResourceInfo) : RLe a b → RLe b c → RLe a c := by
  rw [RLe, RLe, RLe]
  intro h1 h2
  by_contra hcon
  have l3 := (RLess_iff c a).mp (Bool.not_eq_false _ |>.mp hcon)
  have hba : ¬ RLess b a = true := by simp [h1]
  have hcb : ¬ RLess c b = true := by simp [h2]
  rw [RLess_iff] at hba hcb
  exact hba (lt_of_le_of_lt (not_lt.mp hcb) l3)

/-- C9 counterexample: the `LatestState` snapshot does not preserve the
`Error` field of a record: a collector whose single record carries an
error yields a snapshot whose copy of that record has `Error = none`,
while the collector's own record still carries the error. -/
theorem latestState_error_field_not_preserved :
    (lookupInfo collectorWithError.resourceInfos deploymentId).map ResourceInfo.Error =
      some (some .expectedDeleteError) ∧
    (collectorWithError.LatestState).resourceInfos.map ResourceInfo.Error = [none] := by
  decide

/-- C9 (amended): `LatestState` returns a snapshot of fresh copies of
the per-object records, sorted by namespace, then group, then kind,
then name (pairwise ordered by the complement of `ResourceInfos.Less`,
a permutation of the records); each copy preserves every field of its
record except `Error`, which is reset to its zero value; in this pure
embedding, events processed after the call produce a new collector
value and cannot alter a previously returned snapshot. -/
theorem latestState_sorted_copies (r : resourceStateCollector) :
    ((r.LatestState).resourceInfos).Pairwise RLe ∧
    (r.LatestState).resourceInfos.Perm
      (r.resourceInfos.map (fun p => copyResourceInfo p.2)) ∧
    (∀ ri ∈ (r.LatestState).resourceInfos, ∃ p ∈ r.resourceInfos,
      ri = copyResourceInfo p.2 ∧ ri.Error = none ∧
      ri.identifier = p.2.identifier ∧ ri.resourceStatus = p.2.resourceStatus ∧
      ri.ResourceAction = p.2.ResourceAction ∧ ri.ApplyOpResult = p.2.ApplyOpResult ∧
      ri.PruneOpResult = p.2.PruneOpResult ∧ ri.DeleteOpResult = p.2.DeleteOpResult ∧
      ri.WaitOpResult = p.2.WaitOpResult) ∧
    (r.LatestState).err = r.err := by
  haveI : IsTotal ResourceInfo RLe := ⟨RLe_total⟩
  haveI : IsTrans ResourceInfo RLe := ⟨RLe_trans⟩
  refine ⟨List.sorted_insertionSort RLe _, List.perm_insertionSort RLe _, ?_, rfl⟩
  intro ri hri
  rw [resourceStateCollector.LatestState] at hri
  simp only [List.mem_insertionSort, List.mem_map] at hri
  rcases hri with ⟨p, hp, rfl⟩
  exact ⟨p, hp, rfl, rfl, rfl, rfl, rfl, rfl, rfl, rfl, rfl⟩

/-- Witness for C9 at a concrete collector. -/
theorem latestState_sorted_copies_witness :
    ((collectorWithError.LatestState).resourceInfos).Pairwise RLe ∧
    (collectorWithError.LatestState).err = collectorWithError.err :=
  ⟨(latestState_sorted_copies collectorWithError).1,
   (latestState_sorted_copies collectorWithError).2.2.2⟩

/-- C7: the caller-visible result of a completed run is a composite
result error carrying the final Stats snapshot iff some
failure/timeout counter is non-zero; concretely, the
successful-apply/failed-reconcile scenario yields a ResultError with
Stats{Apply.Created=1, Wait.Failed=1}, and the all-successful scenario
yields no error. -/
theorem run_result_iff_failures (s : Stats) :
    (runResult s = some { Stats := s } ↔
      (s.ApplyStats.Failed ≠ 0 ∨ s.PruneStats.Failed ≠ 0 ∨ s.DeleteStats.Failed ≠ 0 ∨
        s.WaitStats.Failed ≠ 0 ∨ s.WaitStats.Timeout ≠ 0)) ∧
    (runResult s = none ↔
      (s.ApplyStats.Failed = 0 ∧ s.PruneStats.Failed = 0 ∧ s.DeleteStats.Failed = 0 ∧
        s.WaitStats.Failed = 0 ∧ s.WaitStats.Timeout = 0)) ∧
    ((processEvents (newResourceStateCollector printTestGroups)
        applyFailedReconcileEvents).map (fun c => c.Stats) =
      .ok { ApplyStats := { Created := 1 }, WaitStats := { Failed := 1 } }) ∧
    ((processEvents (newResourceStateCollector printTestGroups)
        applyFailedReconcileEvents).map (fun c => runResult c.Stats) =
      .ok (some { Stats :=
        { ApplyStats := { Created := 1 }, WaitStats := { Failed := 1 } } })) ∧
    ((processEvents (newResourceStateCollector printTestGroups)
        applyReconciledEvents).map (fun c => runResult c.Stats) = .ok none) := by
  have hsum : (0 < s.FailedActuationSum + s.FailedReconciliationSum) ↔
      (s.ApplyStats.Failed ≠ 0 ∨ s.PruneStats.Failed ≠ 0 ∨ s.DeleteStats.Failed ≠ 0 ∨
        s.WaitStats.Failed ≠ 0 ∨ s.WaitStats.Timeout ≠ 0) := by
    rw [Stats.FailedActuationSum, Stats.FailedReconciliationSum]
    omega
  refine ⟨?_, ?_, rfl, rfl, rfl⟩
  · by_cases h : 0 < s.FailedActuationSum + s.FailedReconciliationSum
    · rw [runResult, if_pos h]
      simp [hsum.mp h]
    · rw [runResult, if_neg h]
      have hnot := mt hsum.mpr h
      constructor
      · intro hc; cases hc
      · intro hc; exact absurd hc hnot
  · by_cases h : 0 < s.FailedActuationSum + s.FailedReconciliationSum
    · rw [runResult, if_pos h]
      have hpos := hsum.mp h
      constructor
      · intro hc; cases hc
      · intro hall
        rcases hpos with h1 | h1 | h1 | h1 | h1 <;> omega
    · rw [runResult, if_neg h]
      have hall : s.FailedActuationSum + s.FailedReconciliationSum = 0 := by omega
      rw [Stats.FailedActuationSum, Stats.FailedReconciliationSum] at hall
      constructor
      · intro _; omega
      · intro _; rfl

/-- `splitSep` never returns the empty list of parts. -/
theorem splitSep_ne_nil (sep : Char) : ∀ l : List Char, splitSep sep l ≠ []
  | [] => by simp [splitSep]
  | c :: cs => by
    rw [splitSep]
    cases h : splitSep sep cs with
    | nil => simp
    | cons hh tt => by_cases hc : c = sep <;> simp [hc]

/-- A separator-free list is one whole part. -/
theorem splitSep_no_sep (sep : Char) : ∀ l : List Char, sep ∉ l → splitSep sep l = [l]
  | [], _ => rfl
  | c :: cs, h => by
    have hc : ¬ c = sep := fun hc => h (hc ▸ List.mem_cons_self c cs)
    simp [splitSep, splitSep_no_sep sep cs (fun hm => h (List.mem_cons_of_mem _ hm)), hc]

/-- Splitting a list that starts with a separator-free prefix followed
by a separator peels off that prefix as the first part. -/
theorem splitSep_append (sep : Char) :
    ∀ (a rest : List Char), sep ∉ a →
      splitSep sep (a ++ sep :: rest) = a :: splitSep sep rest
  | [], rest, _ => by
    cases hres : splitSep sep rest with
    | nil => exact absurd hres (splitSep_ne_nil sep rest)
    | cons hh tt => simp [splitSep, hres]
  | c :: a, rest, h => by
    have hc : ¬ c = sep := fun hc => h (hc ▸ List.mem_cons_self c a)
    simp [splitSep,
      splitSep_append sep a rest (fun hm => h (List.mem_cons_of_mem _ hm)), hc]

/-- Parsing the key of a separator-free identifier recovers it. -/
theorem parse_toKey (m : ObjMetadata) (h : NoSep m) :
    ParseObjMetadata m.toKey = some m := by
  rcases h with ⟨h1, h2, h3, h4⟩
  rw [ParseObjMetadata, ObjMetadata.toKey]
  show (match splitSep fieldSeparator (m.Namespace.data ++ fieldSeparator ::
      (m.Name.data ++ fieldSeparator ::
        (m.GroupKind.Group.data ++ fieldSeparator :: m.GroupKind.Kind.data))) with
    | [ns, n, g, k] =>
      some { Namespace := ⟨ns⟩, Name := ⟨n⟩,
             GroupKind := { Group := ⟨g⟩, Kind := ⟨k⟩ } }
    | _ => none) = some m
  rw [splitSep_append fieldSeparator _ _ h1, splitSep_append fieldSeparator _ _ h2,
    splitSep_append fieldSeparator _ _ h3, splitSep_no_sep fieldSeparator _ h4]

/-- The keys after a map insertion. -/
theorem mem_insertKey_keys (m : List (String × String)) (k v s : String) :
    s ∈ (insertKey m k v).map Prod.fst ↔ s = k ∨ s ∈ m.map Prod.fst := by
  rw [insertKey]
  split
  · rename_i hany
    have hk : k ∈ m.map Prod.fst := by
      rcases List.any_eq_true.mp hany with ⟨p, hp, hpk⟩
      rw [decide_eq_true_eq] at hpk
      exact hpk ▸ List.mem_map_of_mem _ hp
    have hkeys : (m.map (fun p => if p.1 = k then (k, v) else p)).map Prod.fst =
        m.map Prod.fst := by
      rw [List.map_map]
      apply List.map_congr_left
      intro p _
      by_cases hp : p.1 = k
      · simp [hp]
      · simp [hp]
    rw [hkeys]
    constructor
    · exact Or.inr
    · rintro (rfl | hs)
      · exact hk
      · exact hs
  · rw [List.map_append]
    simp only [List.map_cons, List.map_nil, List.mem_append, List.mem_singleton]
    tauto

/-- The keys of the data map built from a metadata set are exactly the
identifier keys of the set. -/
theorem mem_buildObjMap_keys_aux (s : String) :
    ∀ (S : List ObjMetadata) (acc : List (String × String)),
      s ∈ (S.foldl (fun objMap m => insertKey objMap m.toKey "") acc).map Prod.fst ↔
        s ∈ acc.map Prod.fst ∨ ∃ m ∈ S, s = m.toKey
  | [], acc => by simp
  | m0 :: S, acc => by
    rw [List.foldl_cons, mem_buildObjMap_keys_aux s S _, mem_insertKey_keys]
    constructor
    · rintro ((rfl | ha) | ⟨m, hm, rfl⟩)
      · exact Or.inr ⟨m0, List.mem_cons_self m0 S, rfl⟩
      · exact Or.inl ha
      · exact Or.inr ⟨m, List.mem_cons_of_mem _ hm, rfl⟩
    · rintro (ha | ⟨m, hm, rfl⟩)
      · exact Or.inl (Or.inr ha)
      · rcases List.mem_cons.mp hm with rfl | hm2
        · exact Or.inl (Or.inl rfl)
        · exact Or.inr ⟨m, hm2, rfl⟩

/-- When every key parses, `loadKeys` succeeds and returns exactly the
parses of the keys. -/
theorem loadKeys_ok :
    ∀ ks : List String, (∀ k ∈ ks, (ParseObjMetadata k).isSome) →
      ∃ ms, loadKeys ks = .ok ms ∧
        ∀ x, (x ∈ ms ↔ ∃ k ∈ ks, ParseObjMetadata k = some x)
  | [], _ => ⟨[], rfl, by simp⟩
  | k :: ks, h => by
    rcases Option.isSome_iff_exists.mp (h k (List.mem_cons_self k ks)) with ⟨m, hm⟩
    rcases loadKeys_ok ks (fun k2 hk2 => h k2 (List.mem_cons_of_mem _ hk2)) with
      ⟨ms, hok, hmem⟩
    refine ⟨m :: ms, ?_, ?_⟩
    · rw [loadKeys, hm, hok]
    · intro x
      simp only [List.mem_cons]
      constructor
      · rintro (rfl | hx)
        · exact ⟨k, Or.inl rfl, hm⟩
        · rcases (hmem x).mp hx with ⟨k2, hk2, hp⟩
          exact ⟨k2, Or.inr hk2, hp⟩
      · rintro ⟨k2, (rfl | hk2), hp⟩
        · rw [hm] at hp
          exact Or.inl (Option.some_injective _ hp).symm
        · exact Or.inr ((hmem x).mpr ⟨k2, hk2, hp⟩)

/-- C10: round trip of the ConfigMap inventory backend: `Store` leaves
the wrapped template unmodified, `GetObject` returns a copy differing
from the template only in its data section, and `Load` of the object
returned by `GetObject` after `Store S` yields exactly the identifiers
of `S` as a set. -/
theorem configMap_roundtrip (tmpl : ConfigMapObj) (S : List ObjMetadata)
    (h : ∀ m ∈ S, NoSep m) :
    ((WrapInventoryObj tmpl).Store S).inv = tmpl ∧
    ({ ((WrapInventoryObj tmpl).Store S).GetObject with data := tmpl.data } = tmpl) ∧
    ∃ loaded,
      (WrapInventoryObj (((WrapInventoryObj tmpl).Store S).GetObject)).Load =
        .ok loaded ∧ ∀ x, (x ∈ loaded ↔ x ∈ S) := by
  refine ⟨rfl, rfl, ?_⟩
  have hkeys : ∀ k ∈ (buildObjMap S).map Prod.fst, (ParseObjMetadata k).isSome := by
    intro k hk
    have := (mem_buildObjMap_keys_aux k S []).mp (by simpa [buildObjMap] using hk)
    rcases this with h0 | ⟨m, hm, rfl⟩
    · simp at h0
    · rw [parse_toKey m (h m hm)]
      rfl
  rcases loadKeys_ok _ hkeys with ⟨ms, hok, hmem⟩
  refine ⟨ms, ?_, ?_⟩
  · show loadKeys ((buildObjMap S).map Prod.fst) = .ok ms
    exact hok
  · intro x
    rw [hmem x]
    constructor
    · rintro ⟨k, hk, hp⟩
      have := (mem_buildObjMap_keys_aux k S []).mp (by simpa [buildObjMap] using hk)
      rcases this with h0 | ⟨m, hm, rfl⟩
      · simp at h0
      · rw [parse_toKey m (h m hm)] at hp
        exact (Option.some_injective _ hp) ▸ hm
    · intro hx
      refine ⟨x.toKey, ?_, parse_toKey x (h x hx)⟩
      rw [buildObjMap]
      exact (mem_buildObjMap_keys_aux x.toKey S []).mpr (Or.inr ⟨x, hx, rfl⟩)

/-- Witness for C10 at concrete inputs: the inventory template and the
pod and pdb identifiers. -/
theorem configMap_roundtrip_witness :
    ((WrapInventoryObj inventoryTemplate).Store [podId, pdbId]).inv =
      inventoryTemplate ∧
    ({ ((WrapInventoryObj inventoryTemplate).Store [podId, pdbId]).GetObject with
        data := inventoryTemplate.data } = inventoryTemplate) ∧
    ∃ loaded,
      (WrapInventoryObj
          (((WrapInventoryObj inventoryTemplate).Store [podId, pdbId]).GetObject)).Load =
        .ok loaded ∧ ∀ x, (x ∈ loaded ↔ x ∈ [podId, pdbId]) :=
  configMap_roundtrip inventoryTemplate [podId, pdbId] (by decide)
